import Mathlib

/-!
Verification of the TextComparer similarity engine
(`src/services/similarity.py`).

The Python source is embedded shallowly:

* Strings and token lists are embedded computably (`String`, `List Char`,
  `List String`).  The regex `\b\w+\b` over the lower-cased text is modelled
  as the list of maximal runs of word characters; as in the source, a word
  character is an alphanumeric character or an underscore (the source inputs
  relevant here are ASCII, so ASCII classification is used).
* Python `float` arithmetic is idealised as real arithmetic (`ℝ`):
  `math.log` is `Real.log`, `math.sqrt` is `Real.sqrt`, and Python's
  `round(x, n)` (round-half-to-even on the decimal value) is modelled by
  `pyRound` below, which rounds `x * 10^n` to the nearest integer, ties to
  the even integer, exactly as documented for `round`.
* Every definition mirrors the corresponding Python line for line;
  `Option`-valued variants (suffix `?`) re-run the same computations with
  every division, logarithm and square root checked, to express the claim
  that no input can make the engine raise.
-/

/-- Word characters matched by the regex `\w` (ASCII fragment):
letters, digits and the underscore. -/
def isWordChar (c : Char) : Bool := c.isAlphanum || c == '_'

/-- Sentence separators used by `re.split(r'[.!?]', text)`. -/
def isSentSep (c : Char) : Bool := c == '.' || c == '!' || c == '?'

/-- Punctuation marks matched by `re.findall(r'[,.!?;:]', text)`. -/
def isPunct (c : Char) : Bool :=
  c == ',' || c == '.' || c == '!' || c == '?' || c == ';' || c == ':'

/-- Maximal runs of characters satisfying `p`; separators are dropped.
This is the semantics of `re.findall` for a pattern matching runs of a
character class, and of `str.split()` for the non-whitespace class. -/
def runsBy (p : Char → Bool) (cs : List Char) : List (List Char) :=
  let r := cs.foldr
    (fun c acc =>
      if p c then (c :: acc.1, acc.2)
      else ([], if acc.1 = [] then acc.2 else acc.1 :: acc.2))
    ([], [])
  if r.1 = [] then r.2 else r.1 :: r.2

/-- Python `text.lower()`: ASCII per-character lower-casing. -/
def lowerData (text : String) : List Char :=
  text.data.map Char.toLower

/-- Tokens of a text: `re.findall(r"\b\w+\b", text.lower())`.  A token is
kept as its character list; comparison of `List Char` is code-point
lexicographic, exactly as Python compares `str` values. -/
def pyWords (text : String) : List (List Char) :=
  runsBy isWordChar (lowerData text)

/-- Python `re.split(r'[.!?]', text)`: split at every single occurrence of a
sentence separator (adjacent separators yield empty segments). -/
def splitOnSeps (cs : List Char) : List (List Char) :=
  cs.foldr
    (fun c acc =>
      if isSentSep c then [] :: acc else (c :: acc.headI) :: acc.tail)
    [[]]

/-- Python `str.strip()`: remove leading and trailing whitespace. -/
def stripChars (cs : List Char) : List Char :=
  ((cs.dropWhile Char.isWhitespace).reverse.dropWhile Char.isWhitespace).reverse

/-- Sentences of a text:
`[s.strip() for s in re.split(r'[.!?]', text) if s.strip()]`. -/
def sentencesOf (text : String) : List (List Char) :=
  ((splitOnSeps text.data).map stripChars).filter (fun s => s ≠ [])

/-- Number of words of a sentence as counted by `len(s.split())`:
maximal non-whitespace runs. -/
def wsWordCount (s : List Char) : ℕ :=
  (runsBy (fun c => !c.isWhitespace) s).length

/-- Number of punctuation marks: `len(re.findall(r'[,.!?;:]', text))`. -/
def punctCount (text : String) : ℕ :=
  (text.data.filter isPunct).length

/-! ### Python rounding

`round(x, n)` rounds the value `x * 10^n` to the nearest integer, ties going
to the even integer (banker's rounding), and divides back by `10^n`. -/

/-- Round a real to the nearest integer, ties to the even integer. -/
noncomputable def rhe (y : ℝ) : ℤ :=
  if y - ⌊y⌋ = 1 / 2 then (if Even ⌊y⌋ then ⌊y⌋ else ⌊y⌋ + 1) else round y

/-- Python `round(x, n)` on the idealised real value. -/
noncomputable def pyRound (n : ℕ) (x : ℝ) : ℝ :=
  (rhe (x * 10 ^ n) : ℝ) / 10 ^ n

/-! ### StylisticFingerprint -/

namespace StylisticFingerprint

/-- Body of `StylisticFingerprint._compute_fingerprint`. -/
noncomputable def compute (text : String) : List ℝ :=
  let sentences := sentencesOf text
  let words := pyWords text
  let punctuation := punctCount text
  let avg_sentence : ℝ :=
    if sentences = [] then 0
    else ((sentences.map wsWordCount).sum : ℝ) / (sentences.length : ℝ)
  let avg_word : ℝ :=
    if words = [] then 0
    else ((words.map List.length).sum : ℝ) / (words.length : ℝ)
  let punc_density : ℝ :=
    if words = [] then 0 else (punctuation : ℝ) / (words.length : ℝ)
  let lex_div : ℝ :=
    if words = [] then 0
    else ((words.dedup.length : ℕ) : ℝ) / (words.length : ℝ)
  let short_ratio : ℝ :=
    if sentences = [] then 0
    else (((sentences.filter (fun s => wsWordCount s < 5)).length : ℕ) : ℝ) /
      (sentences.length : ℝ)
  [avg_sentence, avg_word, punc_density, lex_div, short_ratio].map (pyRound 3)

/-- Positional normalised differences built by the loop of
`StylisticFingerprint.compare`. -/
noncomputable def diffsOf (fp1 fp2 : List ℝ) (epsilon : ℝ) : List ℝ :=
  List.zipWith
    (fun a b => if a = 0 ∧ b = 0 then 0 else |a - b| / (max a b + epsilon))
    fp1 fp2

/-- The variable `score` of `StylisticFingerprint.compare`, before rounding. -/
noncomputable def rawScore (fp1 fp2 : List ℝ) (epsilon : ℝ) : ℝ :=
  let diffs := diffsOf fp1 fp2 epsilon
  if diffs = [] then 0 else 1 - diffs.sum / (diffs.length : ℝ)

/-- Python `StylisticFingerprint.compare(fp1, fp2, epsilon=1e-8)`. -/
noncomputable def compare (fp1 fp2 : List ℝ) (epsilon : ℝ := 1 / 10 ^ 8) : ℝ :=
  pyRound 4 (rawScore fp1 fp2 epsilon)

end StylisticFingerprint

/-! ### JaccardSimilarity -/

namespace JaccardSimilarity

/-- Python `JaccardSimilarity.compute(text1, text2)`. -/
noncomputable def compute (text1 text2 : String) : ℝ :=
  let set1 := (pyWords text1).toFinset
  let set2 := (pyWords text2).toFinset
  let union := set1 ∪ set2
  let inter := set1 ∩ set2
  if union = ∅ then 0 else pyRound 4 ((inter.card : ℝ) / (union.card : ℝ))

end JaccardSimilarity

/-! ### TfIdfSimilarity

The Python class is constructed over a list of texts; its fields `vocab` and
`idf` become functions of that list. -/

namespace TfIdfSimilarity

/-- Python `TfIdfSimilarity._build_vocab`: the sorted set of all tokens
(`sorted` of a Python `set`, i.e. deduplicate, then sort lexicographically). -/
def vocab (texts : List String) : List (List Char) :=
  List.insertionSort (· ≤ ·) ((texts.map pyWords).flatten.dedup)

/-- Document frequency of `_compute_idf`:
`sum(1 for toks in tokenized if w in toks)`. -/
def df (texts : List String) (w : List Char) : ℕ :=
  (texts.filter (fun t => w ∈ pyWords t)).length

/-- Python `TfIdfSimilarity._compute_idf` value for one term:
`math.log((N + 1) / (df[w] + 1)) + 1`. -/
noncomputable def idf (texts : List String) (w : List Char) : ℝ :=
  Real.log (((texts.length : ℝ) + 1) / ((df texts w : ℝ) + 1)) + 1

/-- The local variable `vec` of one loop iteration of `compute_vectors`:
per vocabulary term, `tf * idf[w]` with `tf = 1 + log(count)` when
`count > 0` and `0.0` otherwise. -/
noncomputable def rawVec (texts : List String) (text : String) : List ℝ :=
  let tokens := pyWords text
  (vocab texts).map (fun w =>
    let count := tokens.count w
    let tf : ℝ := if 0 < count then 1 + Real.log (count : ℝ) else 0
    tf * idf texts w)

/-- One loop iteration of `compute_vectors`: the TF-IDF vector of `text`,
L2-normalised unless its norm is zero
(`vectors.append([x / norm for x in vec] if norm else vec)`). -/
noncomputable def docVector (texts : List String) (text : String) : List ℝ :=
  let vec := rawVec texts text
  let norm := Real.sqrt ((vec.map (fun x => x * x)).sum)
  if norm = 0 then vec else vec.map (fun x => x / norm)

/-- Python `TfIdfSimilarity.compute_vectors`. -/
noncomputable def compute_vectors (texts : List String) : List (List ℝ) :=
  texts.map (docVector texts)

/-- Python `TfIdfSimilarity.compare(vec1, vec2)`:
`round(dot, 4) if vec1 and vec2 else 0.0`. -/
noncomputable def compare (vec1 vec2 : List ℝ) : ℝ :=
  if vec1 = [] ∨ vec2 = [] then 0
  else pyRound 4 ((List.zipWith (fun a b => a * b) vec1 vec2).sum)

end TfIdfSimilarity

/-! ### TextComparer -/

/-- Result record of `TextComparer.compare_all`. -/
structure ComparisonResult where
  stylistic : ℝ
  jaccard : ℝ
  tfidf : ℝ

namespace TextComparer

/-- Python `TextComparer.compare_all` (the two vectors produced by
`compute_vectors([text1, text2])` are exactly the two `docVector` values). -/
noncomputable def compare_all (text1 text2 : String) : ComparisonResult :=
  let sf1 := StylisticFingerprint.compute text1
  let sf2 := StylisticFingerprint.compute text2
  let style_score := StylisticFingerprint.compare sf1 sf2
  let jaccard_score := JaccardSimilarity.compute text1 text2
  let v1 := TfIdfSimilarity.docVector [text1, text2] text1
  let v2 := TfIdfSimilarity.docVector [text1, text2] text2
  let tfidf_score := TfIdfSimilarity.compare v1 v2
  { stylistic := style_score, jaccard := jaccard_score, tfidf := tfidf_score }

end TextComparer

/-! ### Properties of the rounding model -/

theorem rhe_eq_of_window (k : ℤ) (y : ℝ) (h1 : (k : ℝ) - 1 / 2 < y)
    (h2 : y < (k : ℝ) + 1 / 2) : rhe y = k := by
  rcases le_or_lt (k : ℝ) y with hk | hk
  · have hf : ⌊y⌋ = k := Int.floor_eq_iff.mpr ⟨hk, by linarith⟩
    have hfr : y - (⌊y⌋ : ℝ) ≠ 1 / 2 := by rw [hf]; intro h; linarith
    rw [rhe, if_neg hfr, round_eq]
    refine Int.floor_eq_iff.mpr ⟨by linarith, by linarith⟩
  · have hf : ⌊y⌋ = k - 1 := by
      refine Int.floor_eq_iff.mpr ⟨by push_cast; linarith, by push_cast; linarith⟩
    have hfr : y - (⌊y⌋ : ℝ) ≠ 1 / 2 := by
      rw [hf]; push_cast; intro h; linarith
    rw [rhe, if_neg hfr, round_eq]
    refine Int.floor_eq_iff.mpr ⟨by linarith, by linarith⟩

theorem rhe_eq_floor (y : ℝ) (h : y < (⌊y⌋ : ℝ) + 1 / 2) : rhe y = ⌊y⌋ := by
  have hfr : y - (⌊y⌋ : ℝ) ≠ 1 / 2 := by intro hc; linarith
  rw [rhe, if_neg hfr, round_eq]
  refine Int.floor_eq_iff.mpr ⟨le_trans (Int.floor_le y) (by linarith), by linarith⟩

theorem rhe_eq_floor_add_one (y : ℝ) (h : (⌊y⌋ : ℝ) + 1 / 2 < y) :
    rhe y = ⌊y⌋ + 1 := by
  have hfr : y - (⌊y⌋ : ℝ) ≠ 1 / 2 := by intro hc; linarith
  rw [rhe, if_neg hfr, round_eq]
  have hub := Int.lt_floor_add_one y
  refine Int.floor_eq_iff.mpr ⟨by push_cast; linarith, by push_cast; linarith⟩

theorem le_rhe (y : ℝ) : ⌊y⌋ ≤ rhe y := by
  rw [rhe]
  split_ifs with h1 h2
  · exact le_refl _
  · exact le_add_of_nonneg_right zero_le_one
  · rw [round_eq]
    exact Int.floor_le_floor (by linarith)

theorem rhe_le (y : ℝ) : rhe y ≤ ⌊y⌋ + 1 := by
  rw [rhe]
  split_ifs with h1 h2
  · exact le_add_of_nonneg_right zero_le_one
  · exact le_refl _
  · rw [round_eq]
    have hub := Int.lt_floor_add_one y
    have : ⌊y + 1 / 2⌋ < ⌊y⌋ + 2 := Int.floor_lt.mpr (by push_cast; linarith)
    omega

theorem rhe_mono {y1 y2 : ℝ} (h : y1 ≤ y2) : rhe y1 ≤ rhe y2 := by
  rcases lt_or_le ⌊y1⌋ ⌊y2⌋ with hf | hf
  · exact le_trans (rhe_le y1) (le_trans hf (le_rhe y2))
  · have hf2 : ⌊y1⌋ = ⌊y2⌋ := le_antisymm (Int.floor_le_floor h) hf
    rcases lt_trichotomy y1 ((⌊y1⌋ : ℝ) + 1 / 2) with hc1 | hc1 | hc1
    · rw [rhe_eq_floor y1 hc1, hf2]
      exact le_rhe y2
    · rcases lt_or_le ((⌊y2⌋ : ℝ) + 1 / 2) y2 with hc2 | hc2
      · rw [rhe_eq_floor_add_one y2 hc2, ← hf2]
        exact rhe_le y1
      · have : y1 = y2 := by
          rw [← hf2] at hc2
          linarith
        rw [this]
    · rw [rhe_eq_floor_add_one y1 hc1, hf2]
      rw [hf2] at hc1
      rw [rhe_eq_floor_add_one y2 (lt_of_lt_of_le hc1 h)]

theorem pyRound_eq (n : ℕ) (k : ℤ) (x : ℝ) (h1 : (k : ℝ) - 1 / 2 < x * 10 ^ n)
    (h2 : x * 10 ^ n < (k : ℝ) + 1 / 2) : pyRound n x = (k : ℝ) / 10 ^ n := by
  rw [pyRound, rhe_eq_of_window k _ h1 h2]

theorem pyRound_mono (n : ℕ) {x y : ℝ} (h : x ≤ y) : pyRound n x ≤ pyRound n y := by
  have hp : (0 : ℝ) < 10 ^ n := by positivity
  have := rhe_mono (mul_le_mul_of_nonneg_right h (le_of_lt hp))
  exact (div_le_div_iff_of_pos_right hp).mpr (by exact_mod_cast this)

theorem pyRound_zero (n : ℕ) : pyRound n 0 = 0 := by
  have := pyRound_eq n 0 0 (by norm_num) (by norm_num)
  simpa using this

theorem pyRound_one (n : ℕ) : pyRound n 1 = 1 := by
  have h10 : ((10 ^ n : ℤ) : ℝ) = 10 ^ n := by push_cast; ring
  have := pyRound_eq n (10 ^ n) 1 (by rw [h10]; norm_num) (by rw [h10]; norm_num)
  rw [this, h10, div_self (by positivity)]

theorem pyRound_nonneg (n : ℕ) {x : ℝ} (h : 0 ≤ x) : 0 ≤ pyRound n x := by
  have := pyRound_mono n h
  rwa [pyRound_zero] at this

theorem pyRound_le_one (n : ℕ) {x : ℝ} (h : x ≤ 1) : pyRound n x ≤ 1 := by
  have := pyRound_mono n h
  rwa [pyRound_one] at this

/-! ### Dot products and squared norms of real lists -/

theorem sumsq_nonneg (v : List ℝ) : 0 ≤ (v.map (fun x => x * x)).sum := by
  apply List.sum_nonneg
  intro x hx
  rcases List.mem_map.mp hx with ⟨a, _, rfl⟩
  exact mul_self_nonneg a

theorem dot_nonneg {v1 v2 : List ℝ} (h1 : ∀ x ∈ v1, 0 ≤ x)
    (h2 : ∀ x ∈ v2, 0 ≤ x) :
    0 ≤ (List.zipWith (fun a b => a * b) v1 v2).sum := by
  induction v1 generalizing v2 with
  | nil => simp
  | cons a as ih =>
    cases v2 with
    | nil => simp
    | cons b bs =>
      simp only [List.zipWith_cons_cons, List.sum_cons]
      have ha : 0 ≤ a := h1 a (List.mem_cons_self a as)
      have hb : 0 ≤ b := h2 b (List.mem_cons_self b bs)
      have := ih (fun x hx => h1 x (List.mem_cons_of_mem a hx))
        (fun x hx => h2 x (List.mem_cons_of_mem b hx))
      positivity

theorem dot_le_half_sumsq (v1 v2 : List ℝ) :
    (List.zipWith (fun a b => a * b) v1 v2).sum ≤
      ((v1.map (fun x => x * x)).sum + (v2.map (fun x => x * x)).sum) / 2 := by
  induction v1 generalizing v2 with
  | nil =>
    simp only [List.zipWith_nil_left, List.sum_nil, List.map_nil]
    have := sumsq_nonneg v2
    linarith
  | cons a as ih =>
    cases v2 with
    | nil =>
      simp only [List.zipWith_nil_right, List.sum_nil, List.map_nil, List.sum_nil]
      have := sumsq_nonneg (a :: as)
      linarith
    | cons b bs =>
      simp only [List.zipWith_cons_cons, List.sum_cons, List.map_cons]
      have hab : a * b ≤ (a * a + b * b) / 2 := by nlinarith [sq_nonneg (a - b)]
      have := ih bs
      linarith

theorem dot_self (v : List ℝ) :
    (List.zipWith (fun a b => a * b) v v).sum = (v.map (fun x => x * x)).sum := by
  induction v with
  | nil => simp
  | cons a as ih => simp [ih]

theorem dot_comm (v1 v2 : List ℝ) :
    (List.zipWith (fun a b => a * b) v1 v2).sum =
      (List.zipWith (fun a b => a * b) v2 v1).sum := by
  rw [List.zipWith_comm_of_comm _ mul_comm]

theorem sumsq_map_div (v : List ℝ) (c : ℝ) :
    ((v.map (fun x => x / c)).map (fun x => x * x)).sum =
      (v.map (fun x => x * x)).sum / (c * c) := by
  induction v with
  | nil => simp
  | cons a as ih =>
    simp only [List.map_cons, List.sum_cons, ih]
    rw [div_mul_div_comm, add_div]

theorem sum_lt_length {l : List ℝ} (hne : l ≠ []) (h : ∀ x ∈ l, x < 1) :
    l.sum < (l.length : ℝ) := by
  induction l with
  | nil => exact absurd rfl hne
  | cons a as ih =>
    rcases List.eq_nil_or_concat as with hnil | _
    · subst hnil
      simpa using h a (List.mem_cons_self a [])
    · have ha : a < 1 := h a (List.mem_cons_self a as)
      have has : as.sum ≤ (as.length : ℝ) := by
        have := List.sum_le_card_nsmul as 1 (fun x hx => le_of_lt (h x (List.mem_cons_of_mem a hx)))
        simpa [nsmul_eq_mul] using this
      simp only [List.sum_cons, List.length_cons]
      push_cast
      linarith

theorem sum_nonneg_of_mem {l : List ℝ} (h : ∀ x ∈ l, 0 ≤ x) : 0 ≤ l.sum :=
  List.sum_nonneg h

/-! ### Basic facts about fingerprints -/

theorem fingerprint_length (t : String) : (StylisticFingerprint.compute t).length = 5 := by
  simp [StylisticFingerprint.compute]

theorem fingerprint_nonneg (t : String) :
    ∀ x ∈ StylisticFingerprint.compute t, 0 ≤ x := by
  intro x hx
  rw [StylisticFingerprint.compute] at hx
  simp only [List.mem_map, List.mem_cons, List.not_mem_nil, or_false] at hx
  obtain ⟨y, hy, rfl⟩ := hx
  apply pyRound_nonneg
  rcases hy with h | h | h | h | h <;> subst h <;> split_ifs <;> positivity

/-! ### Concrete evaluations on the double-empty input -/

theorem compute_empty : StylisticFingerprint.compute "" = [0, 0, 0, 0, 0] := by
  have h1 : sentencesOf "" = [] := by decide
  have h2 : pyWords "" = [] := by decide
  simp [StylisticFingerprint.compute, h1, h2, pyRound_zero]

theorem diffs_zeros (epsilon : ℝ) :
    StylisticFingerprint.diffsOf [0, 0, 0, 0, 0] [0, 0, 0, 0, 0] epsilon =
      [0, 0, 0, 0, 0] := by
  simp [StylisticFingerprint.diffsOf]

theorem raw_zeros (epsilon : ℝ) :
    StylisticFingerprint.rawScore [0, 0, 0, 0, 0] [0, 0, 0, 0, 0] epsilon = 1 := by
  rw [StylisticFingerprint.rawScore, diffs_zeros]
  simp

theorem compare_zeros :
    StylisticFingerprint.compare [0, 0, 0, 0, 0] [0, 0, 0, 0, 0] = 1 := by
  rw [StylisticFingerprint.compare, raw_zeros, pyRound_one]

theorem jaccard_empty : JaccardSimilarity.compute "" "" = 0 := by
  have h2 : pyWords "" = [] := by decide
  simp [JaccardSimilarity.compute, h2]

theorem vocab_empty : TfIdfSimilarity.vocab ["", ""] = [] := by decide

theorem rawVec_empty : TfIdfSimilarity.rawVec ["", ""] "" = [] := by
  simp [TfIdfSimilarity.rawVec, vocab_empty]

theorem docVector_empty : TfIdfSimilarity.docVector ["", ""] "" = [] := by
  simp [TfIdfSimilarity.docVector, rawVec_empty]

theorem tfidf_cmp_nil : TfIdfSimilarity.compare [] [] = 0 := by
  simp [TfIdfSimilarity.compare]

/-- C5: `compare_all` on two empty strings returns exactly `jaccard = 0.0`,
`tfidf = 0.0` and `stylistic = 1.0`; both fingerprints are all-zero, each
positional difference takes the both-zero branch, so the stylistic score is
`1.0`, while the empty word union and empty vocabulary make the other two
scores `0.0`. -/
theorem claim_C5 :
    StylisticFingerprint.compute "" = [0, 0, 0, 0, 0] ∧
      (∀ epsilon : ℝ,
        StylisticFingerprint.diffsOf (StylisticFingerprint.compute "")
          (StylisticFingerprint.compute "") epsilon = [0, 0, 0, 0, 0]) ∧
      TextComparer.compare_all "" "" = ⟨1, 0, 0⟩ := by
  refine ⟨compute_empty, fun epsilon => by rw [compute_empty]; exact diffs_zeros epsilon, ?_⟩
  rw [TextComparer.compare_all]
  simp only [compute_empty, compare_zeros, jaccard_empty, docVector_empty, tfidf_cmp_nil]

/-- C9: `StylisticFingerprint.compare` on two empty vectors returns `0.0`
(the empty-diffs branch bypasses the 1-minus-mean formula), not `1.0`;
this input is unreachable through `compare_all`, whose fingerprints always
have exactly 5 components. -/
theorem claim_C9 :
    StylisticFingerprint.compare [] [] = 0 ∧ (0 : ℝ) ≠ 1 ∧
      ∀ t : String, (StylisticFingerprint.compute t).length = 5 := by
  refine ⟨?_, by norm_num, fingerprint_length⟩
  rw [StylisticFingerprint.compare, StylisticFingerprint.rawScore]
  simp [StylisticFingerprint.diffsOf, pyRound_zero]

/-! ### Claim C10: TfIdfSimilarity.compare on vectors of any lengths -/

theorem zipWith_mul_take (v1 v2 : List ℝ) :
    List.zipWith (fun a b => a * b) v1 v2 =
      List.zipWith (fun a b => a * b) (v1.take v2.length) (v2.take v1.length) := by
  induction v1 generalizing v2 with
  | nil => simp
  | cons a as ih =>
    cases v2 with
    | nil => simp
    | cons b bs => simp [ih bs]

/-- C10 (amended): `TfIdfSimilarity.compare` is total on vectors of any
lengths; it computes the dot product over the common prefix of positions
(truncating each vector to the other's length does not change the result),
and it returns `0.0` whenever at least one of the two vectors is empty
(though it can also return `0.0` for non-empty vectors, e.g. orthogonal
ones). -/
theorem claim_C10 (v1 v2 : List ℝ) :
    TfIdfSimilarity.compare v1 v2 =
      TfIdfSimilarity.compare (v1.take v2.length) (v2.take v1.length) ∧
    ((v1 = [] ∨ v2 = []) → TfIdfSimilarity.compare v1 v2 = 0) := by
  constructor
  · by_cases h1 : v1 = []
    · subst h1; simp [TfIdfSimilarity.compare]
    · by_cases h2 : v2 = []
      · subst h2; simp [TfIdfSimilarity.compare]
      · have hl1 : v2.length ≠ 0 := fun hc => h2 (List.length_eq_zero.mp hc)
        have hl2 : v1.length ≠ 0 := fun hc => h1 (List.length_eq_zero.mp hc)
        have hne1 : v1.take v2.length ≠ [] := by
          rw [Ne, List.take_eq_nil_iff]
          push_neg
          exact ⟨hl1, h1⟩
        have hne2 : v2.take v1.length ≠ [] := by
          rw [Ne, List.take_eq_nil_iff]
          push_neg
          exact ⟨hl2, h2⟩
        rw [TfIdfSimilarity.compare, TfIdfSimilarity.compare,
          if_neg (by tauto), if_neg (by tauto), ← zipWith_mul_take]
  · intro h
    rw [TfIdfSimilarity.compare, if_pos h]

/-- C10 counterexample: the claim's "returns 0.0 exactly when at least one
vector is empty" is false: on the non-empty orthogonal vectors `[1, 0]` and
`[0, 1]` the comparator also returns `0.0`. -/
theorem claim_C10_cex :
    TfIdfSimilarity.compare [(1 : ℝ), 0] [0, 1] = 0 ∧
      ¬(([(1 : ℝ), 0] : List ℝ) = [] ∨ ([(0 : ℝ), 1] : List ℝ) = []) := by
  constructor
  · rw [TfIdfSimilarity.compare, if_neg (by simp)]
    have hz : (List.zipWith (fun a b => a * b) [(1 : ℝ), 0] [0, 1]).sum = 0 := by
      norm_num
    rw [hz, pyRound_zero]
  · simp


theorem mem_vocab_iff (texts : List String) (w : List Char) :
    w ∈ TfIdfSimilarity.vocab texts ↔ ∃ t ∈ texts, w ∈ pyWords t := by
  rw [TfIdfSimilarity.vocab, List.mem_insertionSort, List.mem_dedup, List.mem_flatten]
  constructor
  · rintro ⟨l, hl, hw⟩
    rcases List.mem_map.mp hl with ⟨t, ht, rfl⟩
    exact ⟨t, ht, hw⟩
  · rintro ⟨t, ht, hw⟩
    exact ⟨pyWords t, List.mem_map_of_mem pyWords ht, hw⟩

theorem diffsOf_self (fp : List ℝ) (epsilon : ℝ) :
    StylisticFingerprint.diffsOf fp fp epsilon = List.replicate fp.length 0 := by
  induction fp with
  | nil => simp [StylisticFingerprint.diffsOf]
  | cons a as ih =>
    rw [StylisticFingerprint.diffsOf] at ih ⊢
    simp only [List.zipWith_cons_cons, List.length_cons, List.replicate_succ, ih]
    congr 1
    split_ifs with h
    · rfl
    · rw [sub_self, abs_zero, zero_div]

theorem rawScore_self (fp : List ℝ) (epsilon : ℝ) (h : fp ≠ []) :
    StylisticFingerprint.rawScore fp fp epsilon = 1 := by
  rw [StylisticFingerprint.rawScore, diffsOf_self]
  have hne : List.replicate fp.length (0 : ℝ) ≠ [] := by
    simp [List.replicate_eq_nil_iff, List.length_eq_zero, h]
  rw [if_neg hne]
  simp

theorem styl_self (t : String) :
    StylisticFingerprint.compare (StylisticFingerprint.compute t)
      (StylisticFingerprint.compute t) = 1 := by
  have h : StylisticFingerprint.compute t ≠ [] := by
    intro hc
    have := fingerprint_length t
    rw [hc] at this
    simp at this
  rw [StylisticFingerprint.compare, rawScore_self _ _ h, pyRound_one]

theorem jaccard_self (t : String) (h : pyWords t ≠ []) :
    JaccardSimilarity.compute t t = 1 := by
  rw [JaccardSimilarity.compute]
  have hu : (pyWords t).toFinset ∪ (pyWords t).toFinset = (pyWords t).toFinset :=
    Finset.union_self _
  have hi : (pyWords t).toFinset ∩ (pyWords t).toFinset = (pyWords t).toFinset :=
    Finset.inter_self _
  have hne : (pyWords t).toFinset ≠ ∅ := by
    rw [Ne, List.toFinset_eq_empty_iff]
    exact h
  rw [hu, hi, if_neg hne]
  have hc : ((pyWords t).toFinset.card : ℝ) ≠ 0 := by
    rw [Nat.cast_ne_zero, ← Nat.pos_iff_ne_zero]
    exact Finset.card_pos.mpr (Finset.nonempty_of_ne_empty hne)
  rw [div_self hc, pyRound_one]

theorem df_pair_self (t : String) (w : List Char) (hw : w ∈ pyWords t) :
    TfIdfSimilarity.df [t, t] w = 2 := by
  simp [TfIdfSimilarity.df, hw]

theorem idf_pair_self (t : String) (w : List Char) (hw : w ∈ pyWords t) :
    TfIdfSimilarity.idf [t, t] w = 1 := by
  rw [TfIdfSimilarity.idf, df_pair_self t w hw]
  norm_num

theorem rawVec_pair_self_ge_one (t : String) :
    ∀ x ∈ TfIdfSimilarity.rawVec [t, t] t, 1 ≤ x := by
  intro x hx
  rw [TfIdfSimilarity.rawVec] at hx
  simp only [List.mem_map] at hx
  obtain ⟨w, hw, rfl⟩ := hx
  have hwt : w ∈ pyWords t := by
    rcases (mem_vocab_iff [t, t] w).mp hw with ⟨t2, ht2, hmem⟩
    have : t2 = t := by simpa using ht2
    rwa [this] at hmem
  have hc : 0 < (pyWords t).count w := List.count_pos_iff.mpr hwt
  rw [if_pos hc, idf_pair_self t w hwt, mul_one]
  have : (0 : ℝ) ≤ Real.log ((pyWords t).count w : ℝ) := by
    apply Real.log_nonneg
    exact_mod_cast hc
  linarith

theorem compare_docVector_self (texts : List String) (text : String)
    (hpos : 0 < ((TfIdfSimilarity.rawVec texts text).map (fun x => x * x)).sum) :
    TfIdfSimilarity.compare (TfIdfSimilarity.docVector texts text)
      (TfIdfSimilarity.docVector texts text) = 1 := by
  rw [TfIdfSimilarity.docVector]
  set s := ((TfIdfSimilarity.rawVec texts text).map (fun x => x * x)).sum with hs
  have hnorm : Real.sqrt s ≠ 0 := by
    rw [Ne, Real.sqrt_eq_zero']
    push_neg
    exact hpos
  rw [if_neg hnorm]
  have hvne : TfIdfSimilarity.rawVec texts text ≠ [] := by
    intro hc
    rw [hc] at hs
    simp at hs
    rw [hs] at hpos
    exact lt_irrefl 0 hpos
  have hmne : (TfIdfSimilarity.rawVec texts text).map
      (fun x => x / Real.sqrt s) ≠ [] := by
    simpa using hvne
  rw [TfIdfSimilarity.compare, if_neg (by tauto), dot_self, sumsq_map_div,
    Real.mul_self_sqrt (le_of_lt hpos), ← hs, div_self (ne_of_gt hpos), pyRound_one]

theorem tfidf_self_pair (t : String) (h : pyWords t ≠ []) :
    TfIdfSimilarity.compare (TfIdfSimilarity.docVector [t, t] t)
      (TfIdfSimilarity.docVector [t, t] t) = 1 := by
  apply compare_docVector_self
  apply List.sum_pos
  · intro x hx
    rcases List.mem_map.mp hx with ⟨a, ha, rfl⟩
    have := rawVec_pair_self_ge_one t a ha
    nlinarith
  · obtain ⟨w, hw⟩ := List.exists_mem_of_ne_nil _ h
    have hwv : w ∈ TfIdfSimilarity.vocab [t, t] :=
      (mem_vocab_iff [t, t] w).mpr ⟨t, by simp, hw⟩
    have : TfIdfSimilarity.rawVec [t, t] t ≠ [] := by
      rw [TfIdfSimilarity.rawVec]
      simp only [Ne, List.map_eq_nil_iff]
      exact List.ne_nil_of_mem hwv
    simpa using this

/-- C1 (amended): for any text `t` containing at least one word token,
`compare_all(t, t)` returns `jaccard = 1.0`, `tfidf = 1.0` and
`stylistic = 1.0`. -/
theorem claim_C1 (t : String) (h : pyWords t ≠ []) :
    TextComparer.compare_all t t = ⟨1, 1, 1⟩ := by
  rw [TextComparer.compare_all]
  simp only [styl_self, jaccard_self t h, tfidf_self_pair t h]

/-- Witness for C1 at the concrete one-word text `"a"`. -/
theorem claim_C1_witness :
    pyWords "a" ≠ [] ∧ TextComparer.compare_all "a" "a" = ⟨1, 1, 1⟩ :=
  ⟨by decide, claim_C1 "a" (by decide)⟩

/-- C1 counterexample: the claim as stated quantifies over all non-empty
texts, but the non-empty all-whitespace text `" "` has no word tokens and
`compare_all(" ", " ")` returns `jaccard = 0.0`, not `1.0`. -/
theorem claim_C1_cex :
    (" " : String) ≠ "" ∧ (TextComparer.compare_all " " " ").jaccard = 0 ∧
      (0 : ℝ) ≠ 1 := by
  refine ⟨by decide, ?_, by norm_num⟩
  rw [TextComparer.compare_all]
  have h2 : pyWords " " = [] := by decide
  simp [JaccardSimilarity.compute, h2]

/-- Witness for C10 at concrete vectors `[1]` and `[]`, discharging the
emptiness hypothesis of the second conjunct. -/
theorem claim_C10_witness :
    (TfIdfSimilarity.compare [(1 : ℝ)] [] =
      TfIdfSimilarity.compare (List.take (List.length ([] : List ℝ)) [(1 : ℝ)])
        (List.take (List.length [(1 : ℝ)]) ([] : List ℝ))) ∧
    TfIdfSimilarity.compare [(1 : ℝ)] [] = 0 :=
  ⟨(claim_C10 [(1 : ℝ)] []).1, (claim_C10 [(1 : ℝ)] []).2 (Or.inr rfl)⟩


theorem jaccard_bounds (t1 t2 : String) :
    0 ≤ JaccardSimilarity.compute t1 t2 ∧ JaccardSimilarity.compute t1 t2 ≤ 1 := by
  rw [JaccardSimilarity.compute]
  split_ifs with h
  · exact ⟨le_refl 0, zero_le_one⟩
  · set s1 := (pyWords t1).toFinset
    set s2 := (pyWords t2).toFinset
    have hpos : 0 < ((s1 ∪ s2).card : ℝ) := by
      rw [Nat.cast_pos, Finset.card_pos]
      exact Finset.nonempty_of_ne_empty h
    constructor
    · exact pyRound_nonneg 4 (div_nonneg (Nat.cast_nonneg _) (le_of_lt hpos))
    · apply pyRound_le_one
      rw [div_le_one hpos]
      exact_mod_cast Finset.card_le_card (Finset.inter_subset_union)

theorem df_le_length (texts : List String) (w : List Char) :
    TfIdfSimilarity.df texts w ≤ texts.length :=
  List.length_filter_le _ _

theorem one_le_idf (texts : List String) (w : List Char) :
    1 ≤ TfIdfSimilarity.idf texts w := by
  rw [TfIdfSimilarity.idf]
  have hlog : 0 ≤ Real.log (((texts.length : ℝ) + 1) / ((TfIdfSimilarity.df texts w : ℝ) + 1)) := by
    apply Real.log_nonneg
    rw [le_div_iff₀ (by positivity)]
    have := df_le_length texts w
    have : (TfIdfSimilarity.df texts w : ℝ) ≤ (texts.length : ℝ) := by exact_mod_cast this
    linarith
  linarith

theorem rawVec_nonneg (texts : List String) (text : String) :
    ∀ x ∈ TfIdfSimilarity.rawVec texts text, 0 ≤ x := by
  intro x hx
  rw [TfIdfSimilarity.rawVec] at hx
  simp only [List.mem_map] at hx
  obtain ⟨w, hw, rfl⟩ := hx
  have hidf : 0 ≤ TfIdfSimilarity.idf texts w := le_trans zero_le_one (one_le_idf texts w)
  apply mul_nonneg _ hidf
  split_ifs with hc
  · have : (0 : ℝ) ≤ Real.log ((pyWords text).count w : ℝ) :=
      Real.log_nonneg (by exact_mod_cast hc)
    linarith
  · exact le_refl 0

theorem docVector_nonneg (texts : List String) (text : String) :
    ∀ x ∈ TfIdfSimilarity.docVector texts text, 0 ≤ x := by
  intro x hx
  rw [TfIdfSimilarity.docVector] at hx
  split_ifs at hx with h
  · exact rawVec_nonneg texts text x hx
  · rcases List.mem_map.mp hx with ⟨a, ha, rfl⟩
    exact div_nonneg (rawVec_nonneg texts text a ha) (Real.sqrt_nonneg _)

theorem docVector_sumsq_le_one (texts : List String) (text : String) :
    ((TfIdfSimilarity.docVector texts text).map (fun x => x * x)).sum ≤ 1 := by
  rw [TfIdfSimilarity.docVector]
  set s := ((TfIdfSimilarity.rawVec texts text).map (fun x => x * x)).sum with hs
  have hs0 : 0 ≤ s := sumsq_nonneg _
  split_ifs with h
  · have : s ≤ 0 := Real.sqrt_eq_zero'.mp h
    have : s = 0 := le_antisymm this hs0
    rw [← hs, this]
    exact zero_le_one
  · have hspos : 0 < s := by
      rcases lt_or_eq_of_le hs0 with hlt | heq
      · exact hlt
      · exfalso
        apply h
        rw [← heq, Real.sqrt_zero]
    rw [sumsq_map_div, Real.mul_self_sqrt hs0, ← hs, div_self (ne_of_gt hspos)]

theorem tfidf_cmp_bounds (v1 v2 : List ℝ)
    (h1n : ∀ x ∈ v1, 0 ≤ x) (h2n : ∀ x ∈ v2, 0 ≤ x)
    (h1s : (v1.map (fun x => x * x)).sum ≤ 1)
    (h2s : (v2.map (fun x => x * x)).sum ≤ 1) :
    0 ≤ TfIdfSimilarity.compare v1 v2 ∧ TfIdfSimilarity.compare v1 v2 ≤ 1 := by
  rw [TfIdfSimilarity.compare]
  split_ifs with h
  · exact ⟨le_refl 0, zero_le_one⟩
  · constructor
    · exact pyRound_nonneg 4 (dot_nonneg h1n h2n)
    · apply pyRound_le_one
      have := dot_le_half_sumsq v1 v2
      linarith

theorem diffs_nonneg_lt_one {fp1 fp2 : List ℝ} {epsilon : ℝ} (heps : 0 < epsilon)
    (h1 : ∀ x ∈ fp1, 0 ≤ x) (h2 : ∀ x ∈ fp2, 0 ≤ x) :
    ∀ d ∈ StylisticFingerprint.diffsOf fp1 fp2 epsilon, 0 ≤ d ∧ d < 1 := by
  induction fp1 generalizing fp2 with
  | nil => intro d hd; simp [StylisticFingerprint.diffsOf] at hd
  | cons a as ih =>
    intro d hd
    cases fp2 with
    | nil => simp [StylisticFingerprint.diffsOf] at hd
    | cons b bs =>
      rw [StylisticFingerprint.diffsOf, List.zipWith_cons_cons] at hd
      rcases List.mem_cons.mp hd with hd | hd
      · subst hd
        have ha : 0 ≤ a := h1 a (List.mem_cons_self a as)
        have hb : 0 ≤ b := h2 b (List.mem_cons_self b bs)
        split_ifs with hz
        · exact ⟨le_refl 0, zero_lt_one⟩
        · have hmax : 0 < max a b := by
            rcases not_and_or.mp hz with ha0 | hb0
            · exact lt_max_of_lt_left (lt_of_le_of_ne ha (Ne.symm ha0))
            · exact lt_max_of_lt_right (lt_of_le_of_ne hb (Ne.symm hb0))
          have hden : 0 < max a b + epsilon := by linarith
          constructor
          · exact div_nonneg (abs_nonneg _) (le_of_lt hden)
          · rw [div_lt_one hden]
            have : |a - b| ≤ max a b := by
              rw [abs_sub_le_iff]
              constructor
              · have : b ≥ 0 := hb
                have : a ≤ max a b := le_max_left a b
                linarith
              · have : a ≥ 0 := ha
                have : b ≤ max a b := le_max_right a b
                linarith
            linarith
      · exact ih (fun x hx => h1 x (List.mem_cons_of_mem a hx))
          (fun x hx => h2 x (List.mem_cons_of_mem b hx)) d hd

theorem rawScore_bounds {fp1 fp2 : List ℝ} {epsilon : ℝ} (heps : 0 < epsilon)
    (hne1 : fp1 ≠ []) (hne2 : fp2 ≠ [])
    (h1 : ∀ x ∈ fp1, 0 ≤ x) (h2 : ∀ x ∈ fp2, 0 ≤ x) :
    0 < StylisticFingerprint.rawScore fp1 fp2 epsilon ∧
      StylisticFingerprint.rawScore fp1 fp2 epsilon ≤ 1 := by
  have hdne : StylisticFingerprint.diffsOf fp1 fp2 epsilon ≠ [] := by
    rw [StylisticFingerprint.diffsOf, Ne, List.zipWith_eq_nil_iff]
    push_neg
    exact ⟨hne1, hne2⟩
  have hmem := diffs_nonneg_lt_one heps h1 h2
  rw [StylisticFingerprint.rawScore, if_neg hdne]
  set ds := StylisticFingerprint.diffsOf fp1 fp2 epsilon
  have hlpos : 0 < (ds.length : ℝ) := by
    rw [Nat.cast_pos, List.length_pos]
    exact hdne
  constructor
  · have hsum : ds.sum < (ds.length : ℝ) :=
      sum_lt_length hdne (fun x hx => (hmem x hx).2)
    have : ds.sum / (ds.length : ℝ) < 1 := (div_lt_one hlpos).mpr hsum
    linarith
  · have hsum : 0 ≤ ds.sum := List.sum_nonneg (fun x hx => (hmem x hx).1)
    have : 0 ≤ ds.sum / (ds.length : ℝ) := div_nonneg hsum (le_of_lt hlpos)
    linarith

/-- C3 (amended): for every pair of input texts the scores satisfy
`jaccard ∈ [0,1]` and `tfidf ∈ [0,1]`; for every pair of 5-component
fingerprint vectors with non-negative components, the unrounded stylistic
score is in `(0, 1]` while the value returned by
`StylisticFingerprint.compare` (the score rounded to 4 decimals) is in
`[0, 1]` — the rounding can collapse a tiny positive score to `0.0`. -/
theorem claim_C3 (t1 t2 : String) (fp1 fp2 : List ℝ)
    (hl1 : fp1.length = 5) (hl2 : fp2.length = 5)
    (h1 : ∀ x ∈ fp1, 0 ≤ x) (h2 : ∀ x ∈ fp2, 0 ≤ x) :
    (0 ≤ (TextComparer.compare_all t1 t2).jaccard ∧
      (TextComparer.compare_all t1 t2).jaccard ≤ 1) ∧
    (0 ≤ (TextComparer.compare_all t1 t2).tfidf ∧
      (TextComparer.compare_all t1 t2).tfidf ≤ 1) ∧
    (0 < StylisticFingerprint.rawScore fp1 fp2 (1 / 10 ^ 8) ∧
      StylisticFingerprint.rawScore fp1 fp2 (1 / 10 ^ 8) ≤ 1) ∧
    (0 ≤ StylisticFingerprint.compare fp1 fp2 ∧
      StylisticFingerprint.compare fp1 fp2 ≤ 1) := by
  have hj : (TextComparer.compare_all t1 t2).jaccard = JaccardSimilarity.compute t1 t2 := by
    rw [TextComparer.compare_all]
  have ht : (TextComparer.compare_all t1 t2).tfidf =
      TfIdfSimilarity.compare (TfIdfSimilarity.docVector [t1, t2] t1)
        (TfIdfSimilarity.docVector [t1, t2] t2) := by
    rw [TextComparer.compare_all]
  have hne1 : fp1 ≠ [] := by intro hc; rw [hc] at hl1; simp at hl1
  have hne2 : fp2 ≠ [] := by intro hc; rw [hc] at hl2; simp at hl2
  have heps : (0 : ℝ) < 1 / 10 ^ 8 := by norm_num
  have hrs := rawScore_bounds heps hne1 hne2 h1 h2
  refine ⟨by rw [hj]; exact jaccard_bounds t1 t2, ?_, hrs, ?_⟩
  · rw [ht]
    exact tfidf_cmp_bounds _ _ (docVector_nonneg _ _) (docVector_nonneg _ _)
      (docVector_sumsq_le_one _ _) (docVector_sumsq_le_one _ _)
  · rw [StylisticFingerprint.compare]
    exact ⟨pyRound_nonneg 4 (le_of_lt hrs.1), pyRound_le_one 4 hrs.2⟩


/-- C3 counterexample: on the non-negative 5-component fingerprints
`[1e8, 1e8, 1e8, 1e8, 1e8]` and `[0, 0, 0, 0, 0]`,
`StylisticFingerprint.compare` returns exactly `0.0` (the unrounded score
is `1/(10^16 + 1)`, which rounds to `0.0`), so the returned value is not
strictly positive as the claim states. -/
theorem claim_C3_cex :
    (([(10 : ℝ) ^ 8, 10 ^ 8, 10 ^ 8, 10 ^ 8, 10 ^ 8] : List ℝ).length = 5 ∧
      (∀ x ∈ ([(10 : ℝ) ^ 8, 10 ^ 8, 10 ^ 8, 10 ^ 8, 10 ^ 8] : List ℝ), 0 ≤ x) ∧
      (([0, 0, 0, 0, 0] : List ℝ).length = 5) ∧
      (∀ x ∈ ([0, 0, 0, 0, 0] : List ℝ), 0 ≤ x)) ∧
    StylisticFingerprint.compare [(10 : ℝ) ^ 8, 10 ^ 8, 10 ^ 8, 10 ^ 8, 10 ^ 8]
      [0, 0, 0, 0, 0] = 0 ∧
    ¬(0 < StylisticFingerprint.compare [(10 : ℝ) ^ 8, 10 ^ 8, 10 ^ 8, 10 ^ 8, 10 ^ 8]
      [0, 0, 0, 0, 0]) := by
  have he : (0 : ℝ) < 10 ^ 8 := by norm_num
  have hd : StylisticFingerprint.diffsOf
      [(10 : ℝ) ^ 8, 10 ^ 8, 10 ^ 8, 10 ^ 8, 10 ^ 8] [0, 0, 0, 0, 0] (1 / 10 ^ 8) =
      List.replicate 5 ((10 : ℝ) ^ 8 / (10 ^ 8 + 1 / 10 ^ 8)) := by
    rw [StylisticFingerprint.diffsOf]
    norm_num [max_eq_left, abs_of_nonneg, List.replicate]
  have hraw : StylisticFingerprint.rawScore
      [(10 : ℝ) ^ 8, 10 ^ 8, 10 ^ 8, 10 ^ 8, 10 ^ 8] [0, 0, 0, 0, 0] (1 / 10 ^ 8) =
      1 - (10 : ℝ) ^ 8 / (10 ^ 8 + 1 / 10 ^ 8) := by
    rw [StylisticFingerprint.rawScore, hd]
    rw [if_neg (by simp)]
    simp [List.sum_replicate]
    ring
  have hlt : (10 : ℝ) ^ 8 / (10 ^ 8 + 1 / 10 ^ 8) < 1 := by
    rw [div_lt_one (by norm_num)]
    norm_num
  have hgt : (19999 : ℝ) / 20000 < (10 : ℝ) ^ 8 / (10 ^ 8 + 1 / 10 ^ 8) := by
    rw [div_lt_div_iff₀ (by norm_num) (by norm_num)]
    norm_num
  have hcmp : StylisticFingerprint.compare
      [(10 : ℝ) ^ 8, 10 ^ 8, 10 ^ 8, 10 ^ 8, 10 ^ 8] [0, 0, 0, 0, 0] = 0 := by
    rw [StylisticFingerprint.compare, hraw]
    have h0 := pyRound_eq 4 0 (1 - (10 : ℝ) ^ 8 / (10 ^ 8 + 1 / 10 ^ 8))
      (by push_cast; nlinarith) (by push_cast; nlinarith)
    rw [h0]
    norm_num
  refine ⟨⟨by norm_num, ?_, by norm_num, ?_⟩, hcmp, by rw [hcmp]; exact lt_irrefl 0⟩
  · intro x hx
    simp at hx
    subst hx
    positivity
  · intro x hx
    simp at hx
    subst hx
    exact le_refl 0


/-- Witness for C3 at the concrete texts `""`, `""` and the all-zero
5-component fingerprints. -/
theorem claim_C3_witness :
    (([0, 0, 0, 0, 0] : List ℝ).length = 5 ∧
      ∀ x ∈ ([0, 0, 0, 0, 0] : List ℝ), 0 ≤ x) ∧
    ((0 ≤ (TextComparer.compare_all "" "").jaccard ∧
      (TextComparer.compare_all "" "").jaccard ≤ 1) ∧
    (0 ≤ (TextComparer.compare_all "" "").tfidf ∧
      (TextComparer.compare_all "" "").tfidf ≤ 1) ∧
    (0 < StylisticFingerprint.rawScore [0, 0, 0, 0, 0] [0, 0, 0, 0, 0] (1 / 10 ^ 8) ∧
      StylisticFingerprint.rawScore [0, 0, 0, 0, 0] [0, 0, 0, 0, 0] (1 / 10 ^ 8) ≤ 1) ∧
    (0 ≤ StylisticFingerprint.compare [0, 0, 0, 0, 0] [0, 0, 0, 0, 0] ∧
      StylisticFingerprint.compare [0, 0, 0, 0, 0] [0, 0, 0, 0, 0] ≤ 1)) :=
  ⟨⟨by norm_num, fun x hx => by simp at hx; subst hx; exact le_refl 0⟩,
    claim_C3 "" "" [0, 0, 0, 0, 0] [0, 0, 0, 0, 0] (by norm_num) (by norm_num)
      (fun x hx => by simp at hx; subst hx; exact le_refl 0)
      (fun x hx => by simp at hx; subst hx; exact le_refl 0)⟩


theorem diffsOf_comm (fp1 fp2 : List ℝ) (epsilon : ℝ) :
    StylisticFingerprint.diffsOf fp1 fp2 epsilon =
      StylisticFingerprint.diffsOf fp2 fp1 epsilon := by
  rw [StylisticFingerprint.diffsOf, StylisticFingerprint.diffsOf]
  apply List.zipWith_comm_of_comm
  intro x y
  by_cases h : x = 0 ∧ y = 0
  · rw [if_pos h, if_pos ⟨h.2, h.1⟩]
  · rw [if_neg h, if_neg (fun hc => h ⟨hc.2, hc.1⟩), abs_sub_comm, max_comm]

theorem styl_compare_comm (fp1 fp2 : List ℝ) :
    StylisticFingerprint.compare fp1 fp2 = StylisticFingerprint.compare fp2 fp1 := by
  rw [StylisticFingerprint.compare, StylisticFingerprint.compare,
    StylisticFingerprint.rawScore, StylisticFingerprint.rawScore, diffsOf_comm]

theorem jaccard_comm (t1 t2 : String) :
    JaccardSimilarity.compute t1 t2 = JaccardSimilarity.compute t2 t1 := by
  rw [JaccardSimilarity.compute, JaccardSimilarity.compute,
    Finset.union_comm ((pyWords t2).toFinset) ((pyWords t1).toFinset),
    Finset.inter_comm ((pyWords t2).toFinset) ((pyWords t1).toFinset)]

theorem vocab_swap (t1 t2 : String) :
    TfIdfSimilarity.vocab [t1, t2] = TfIdfSimilarity.vocab [t2, t1] := by
  apply List.eq_of_perm_of_sorted (r := (· ≤ ·))
  · refine (List.perm_insertionSort _ _).trans (List.Perm.trans ?_
      (List.perm_insertionSort _ _).symm)
    rw [List.perm_ext_iff_of_nodup (List.nodup_dedup _) (List.nodup_dedup _)]
    intro w
    simp only [List.mem_dedup, List.mem_flatten, List.mem_map]
    constructor
    · rintro ⟨l, ⟨t, ht, rfl⟩, hw⟩
      refine ⟨pyWords t, ⟨t, ?_, rfl⟩, hw⟩
      simp at ht ⊢
      tauto
    · rintro ⟨l, ⟨t, ht, rfl⟩, hw⟩
      refine ⟨pyWords t, ⟨t, ?_, rfl⟩, hw⟩
      simp at ht ⊢
      tauto
  · exact List.sorted_insertionSort _ _
  · exact List.sorted_insertionSort _ _

theorem df_swap (t1 t2 : String) (w : List Char) :
    TfIdfSimilarity.df [t1, t2] w = TfIdfSimilarity.df [t2, t1] w := by
  simp only [TfIdfSimilarity.df, List.filter_cons, List.filter_nil]
  by_cases h1 : w ∈ pyWords t1 <;> by_cases h2 : w ∈ pyWords t2 <;> simp [h1, h2]

theorem idf_swap (t1 t2 : String) (w : List Char) :
    TfIdfSimilarity.idf [t1, t2] w = TfIdfSimilarity.idf [t2, t1] w := by
  rw [TfIdfSimilarity.idf, TfIdfSimilarity.idf, df_swap]
  norm_num

theorem rawVec_swap (t1 t2 t : String) :
    TfIdfSimilarity.rawVec [t1, t2] t = TfIdfSimilarity.rawVec [t2, t1] t := by
  rw [TfIdfSimilarity.rawVec, TfIdfSimilarity.rawVec, vocab_swap]
  apply List.map_congr_left
  intro w _
  rw [idf_swap]

theorem docVector_swap (t1 t2 t : String) :
    TfIdfSimilarity.docVector [t1, t2] t = TfIdfSimilarity.docVector [t2, t1] t := by
  rw [TfIdfSimilarity.docVector, TfIdfSimilarity.docVector, rawVec_swap]

theorem tfidf_compare_comm (v1 v2 : List ℝ) :
    TfIdfSimilarity.compare v1 v2 = TfIdfSimilarity.compare v2 v1 := by
  rw [TfIdfSimilarity.compare, TfIdfSimilarity.compare]
  by_cases h : v1 = [] ∨ v2 = []
  · rw [if_pos h, if_pos h.symm]
  · rw [if_neg h, if_neg (fun hc => h hc.symm), dot_comm]

/-- C4: for all texts `a` and `b`, `compare_all(a, b)` and
`compare_all(b, a)` return equal values for each of the three scores
`stylistic`, `jaccard` and `tfidf`. -/
theorem claim_C4 (a b : String) :
    (TextComparer.compare_all a b).stylistic = (TextComparer.compare_all b a).stylistic ∧
    (TextComparer.compare_all a b).jaccard = (TextComparer.compare_all b a).jaccard ∧
    (TextComparer.compare_all a b).tfidf = (TextComparer.compare_all b a).tfidf := by
  rw [TextComparer.compare_all, TextComparer.compare_all]
  refine ⟨styl_compare_comm _ _, jaccard_comm a b, ?_⟩
  rw [docVector_swap b a a, docVector_swap b a b, tfidf_compare_comm]


theorem sum_sq_zero {l : List ℝ} (h : (l.map (fun x => x * x)).sum = 0) :
    ∀ x ∈ l, x = 0 := by
  induction l with
  | nil => intro x hx; simp at hx
  | cons a as ih =>
    intro x hx
    rw [List.map_cons, List.sum_cons] at h
    have ha : 0 ≤ a * a := mul_self_nonneg a
    have has : 0 ≤ (as.map (fun x => x * x)).sum := sumsq_nonneg as
    have ha0 : a * a = 0 := by linarith
    have has0 : (as.map (fun x => x * x)).sum = 0 := by linarith
    rcases List.mem_cons.mp hx with rfl | hx
    · exact mul_self_eq_zero.mp ha0
    · exact ih has0 x hx

/-- C7: for every term of the vocabulary built over `N` input texts, the IDF
weight equals `ln((N + 1) / (df + 1)) + 1` where `df` counts the input texts
containing the term; the denominator `df + 1` is never zero, the weight is
strictly positive, and it is exactly `1` for a term present in all `N`
texts. -/
theorem claim_C7 (texts : List String) (w : List Char)
    (_hw : w ∈ TfIdfSimilarity.vocab texts) :
    TfIdfSimilarity.idf texts w =
      Real.log (((texts.length : ℝ) + 1) / ((TfIdfSimilarity.df texts w : ℝ) + 1)) + 1 ∧
    ((TfIdfSimilarity.df texts w : ℝ) + 1 ≠ 0) ∧
    0 < TfIdfSimilarity.idf texts w ∧
    ((∀ t ∈ texts, w ∈ pyWords t) → TfIdfSimilarity.idf texts w = 1) := by
  refine ⟨rfl, by positivity, lt_of_lt_of_le zero_lt_one (one_le_idf texts w), ?_⟩
  intro hall
  have hdf : TfIdfSimilarity.df texts w = texts.length := by
    rw [TfIdfSimilarity.df]
    have : texts.filter (fun t => w ∈ pyWords t) = texts := by
      rw [List.filter_eq_self]
      intro t ht
      exact decide_eq_true (hall t ht)
    rw [this]
  rw [TfIdfSimilarity.idf, hdf, div_self (by positivity), Real.log_one]
  norm_num

/-- Witness for C7 at the corpus `["Cats run.", "Dogs run."]` and the
vocabulary term `run` (present in both texts, so its IDF weight is `1`). -/
theorem claim_C7_witness :
    ("run".data ∈ TfIdfSimilarity.vocab ["Cats run.", "Dogs run."]) ∧
    (TfIdfSimilarity.idf ["Cats run.", "Dogs run."] "run".data =
      Real.log ((((["Cats run.", "Dogs run."] : List String).length : ℝ) + 1) /
        ((TfIdfSimilarity.df ["Cats run.", "Dogs run."] "run".data : ℝ) + 1)) + 1 ∧
    ((TfIdfSimilarity.df ["Cats run.", "Dogs run."] "run".data : ℝ) + 1 ≠ 0) ∧
    0 < TfIdfSimilarity.idf ["Cats run.", "Dogs run."] "run".data ∧
    ((∀ t ∈ (["Cats run.", "Dogs run."] : List String), "run".data ∈ pyWords t) →
      TfIdfSimilarity.idf ["Cats run.", "Dogs run."] "run".data = 1)) :=
  ⟨by decide, claim_C7 ["Cats run.", "Dogs run."] "run".data (by decide)⟩

/-- C8: every vector returned by `TfIdfSimilarity.compute_vectors` has
dimensionality equal to the vocabulary size, and either its Euclidean norm
is `1` or (when the pre-normalisation norm is `0`) it is left unchanged as
the zero vector. -/
theorem claim_C8 (texts : List String) (v : List ℝ)
    (hv : v ∈ TfIdfSimilarity.compute_vectors texts) :
    v.length = (TfIdfSimilarity.vocab texts).length ∧
    (Real.sqrt ((v.map (fun x => x * x)).sum) = 1 ∨ ∀ x ∈ v, x = 0) := by
  rw [TfIdfSimilarity.compute_vectors] at hv
  obtain ⟨t, _, rfl⟩ := List.mem_map.mp hv
  have hlenraw : (TfIdfSimilarity.rawVec texts t).length =
      (TfIdfSimilarity.vocab texts).length := by
    rw [TfIdfSimilarity.rawVec, List.length_map]
  rw [TfIdfSimilarity.docVector]
  set s := ((TfIdfSimilarity.rawVec texts t).map (fun x => x * x)).sum with hs
  have hs0 : 0 ≤ s := sumsq_nonneg _
  split_ifs with h
  · have hzero : s = 0 := le_antisymm (Real.sqrt_eq_zero'.mp h) hs0
    exact ⟨hlenraw, Or.inr (sum_sq_zero (by rw [← hs, hzero]))⟩
  · have hspos : 0 < s := by
      rcases lt_or_eq_of_le hs0 with hlt | heq
      · exact hlt
      · exact absurd (by rw [← heq, Real.sqrt_zero]) h
    refine ⟨by rw [List.length_map, hlenraw], Or.inl ?_⟩
    rw [sumsq_map_div, Real.mul_self_sqrt hs0, ← hs, div_self (ne_of_gt hspos),
      Real.sqrt_one]

/-- Witness for C8 at the corpus `[""]` and its single (empty) vector. -/
theorem claim_C8_witness :
    (TfIdfSimilarity.docVector [""] "" ∈ TfIdfSimilarity.compute_vectors [""]) ∧
    ((TfIdfSimilarity.docVector [""] "").length =
      (TfIdfSimilarity.vocab [""]).length ∧
    (Real.sqrt (((TfIdfSimilarity.docVector [""] "").map (fun x => x * x)).sum) = 1 ∨
      ∀ x ∈ TfIdfSimilarity.docVector [""] "", x = 0)) :=
  ⟨by simp [TfIdfSimilarity.compute_vectors],
    claim_C8 [""] _ (by simp [TfIdfSimilarity.compute_vectors])⟩


theorem log_three_halves_lt : Real.log ((3 : ℝ) / 2) < 0.4056 := by
  rw [Real.log_lt_iff_lt_exp (by norm_num)]
  have hsum := Real.sum_le_exp_of_nonneg (show (0 : ℝ) ≤ 0.4056 by norm_num) 7
  refine lt_of_lt_of_le ?_ hsum
  rw [Finset.sum_range_succ, Finset.sum_range_succ, Finset.sum_range_succ,
    Finset.sum_range_succ, Finset.sum_range_succ, Finset.sum_range_succ,
    Finset.sum_range_succ, Finset.sum_range_zero]
  norm_num [Nat.factorial]

theorem log_three_halves_gt : (0.4053 : ℝ) < Real.log ((3 : ℝ) / 2) := by
  rw [Real.lt_log_iff_exp_lt (by norm_num)]
  have hb := Real.exp_bound' (show (0 : ℝ) ≤ 0.4053 by norm_num)
    (show (0.4053 : ℝ) ≤ 1 by norm_num) (show 0 < 7 by norm_num)
  refine lt_of_le_of_lt hb ?_
  rw [Finset.sum_range_succ, Finset.sum_range_succ, Finset.sum_range_succ,
    Finset.sum_range_succ, Finset.sum_range_succ, Finset.sum_range_succ,
    Finset.sum_range_succ, Finset.sum_range_zero]
  norm_num [Nat.factorial]


theorem pyRound_rat (n : ℕ) (k : ℤ) (x : ℝ) (h : x * 10 ^ n = (k : ℝ)) :
    pyRound n x = x := by
  have hw := pyRound_eq n k x (by rw [h]; norm_num) (by rw [h]; norm_num)
  have hx : x = (k : ℝ) / 10 ^ n := by
    rw [← h]
    field_simp
  rw [hw, ← hx]

theorem compute_cats : StylisticFingerprint.compute "Cats run." = [2, 3.5, 0.5, 1, 1] := by
  have e1 : pyRound 3 (2 : ℝ) = 2 := pyRound_rat 3 2000 2 (by norm_num)
  have e2 : pyRound 3 ((7 : ℝ) / 2) = 7 / 2 := pyRound_rat 3 3500 _ (by norm_num)
  have e3 : pyRound 3 ((1 : ℝ) / 2) = 1 / 2 := pyRound_rat 3 500 _ (by norm_num)
  have e4 : pyRound 3 (1 : ℝ) = 1 := pyRound_one 3
  norm_num [StylisticFingerprint.compute,
    show sentencesOf "Cats run." = [['C', 'a', 't', 's', ' ', 'r', 'u', 'n']] from by decide,
    show pyWords "Cats run." = [['c', 'a', 't', 's'], ['r', 'u', 'n']] from by decide,
    show punctCount "Cats run." = 1 from by decide,
    show wsWordCount ['C', 'a', 't', 's', ' ', 'r', 'u', 'n'] = 2 from by decide,
    show [['c', 'a', 't', 's'], ['r', 'u', 'n']].dedup = [['c', 'a', 't', 's'], ['r', 'u', 'n']]
      from by decide,
    show ¬(([['c', 'a', 't', 's'], ['r', 'u', 'n']] : List (List Char)) = []) from by simp,
    e1, e2, e3, e4]

theorem compute_dogs : StylisticFingerprint.compute "Dogs run." = [2, 3.5, 0.5, 1, 1] := by
  have e1 : pyRound 3 (2 : ℝ) = 2 := pyRound_rat 3 2000 2 (by norm_num)
  have e2 : pyRound 3 ((7 : ℝ) / 2) = 7 / 2 := pyRound_rat 3 3500 _ (by norm_num)
  have e3 : pyRound 3 ((1 : ℝ) / 2) = 1 / 2 := pyRound_rat 3 500 _ (by norm_num)
  have e4 : pyRound 3 (1 : ℝ) = 1 := pyRound_one 3
  norm_num [StylisticFingerprint.compute,
    show sentencesOf "Dogs run." = [['D', 'o', 'g', 's', ' ', 'r', 'u', 'n']] from by decide,
    show pyWords "Dogs run." = [['d', 'o', 'g', 's'], ['r', 'u', 'n']] from by decide,
    show punctCount "Dogs run." = 1 from by decide,
    show wsWordCount ['D', 'o', 'g', 's', ' ', 'r', 'u', 'n'] = 2 from by decide,
    show [['d', 'o', 'g', 's'], ['r', 'u', 'n']].dedup = [['d', 'o', 'g', 's'], ['r', 'u', 'n']]
      from by decide,
    show ¬(([['d', 'o', 'g', 's'], ['r', 'u', 'n']] : List (List Char)) = []) from by simp,
    e1, e2, e3, e4]

theorem vocab_cats_dogs : TfIdfSimilarity.vocab ["Cats run.", "Dogs run."] =
    ["cats".data, "dogs".data, "run".data] := by decide

theorem jaccard_cats_dogs : JaccardSimilarity.compute "Cats run." "Dogs run." = 0.3333 := by
  rw [JaccardSimilarity.compute]
  rw [if_neg (show ¬((pyWords "Cats run.").toFinset ∪ (pyWords "Dogs run.").toFinset = ∅)
    from by decide)]
  rw [show ((pyWords "Cats run.").toFinset ∩ (pyWords "Dogs run.").toFinset).card = 1
    from by decide]
  rw [show ((pyWords "Cats run.").toFinset ∪ (pyWords "Dogs run.").toFinset).card = 3
    from by decide]
  have := pyRound_eq 4 3333 ((1 : ℝ) / 3) (by norm_num) (by norm_num)
  push_cast
  rw [this]
  norm_num


theorem idf_cats : TfIdfSimilarity.idf ["Cats run.", "Dogs run."] "cats".data =
    Real.log ((3 : ℝ) / 2) + 1 := by
  rw [TfIdfSimilarity.idf,
    show TfIdfSimilarity.df ["Cats run.", "Dogs run."] "cats".data = 1 from by decide]
  norm_num

theorem idf_dogs : TfIdfSimilarity.idf ["Cats run.", "Dogs run."] "dogs".data =
    Real.log ((3 : ℝ) / 2) + 1 := by
  rw [TfIdfSimilarity.idf,
    show TfIdfSimilarity.df ["Cats run.", "Dogs run."] "dogs".data = 1 from by decide]
  norm_num

theorem idf_run : TfIdfSimilarity.idf ["Cats run.", "Dogs run."] "run".data = 1 := by
  rw [TfIdfSimilarity.idf,
    show TfIdfSimilarity.df ["Cats run.", "Dogs run."] "run".data = 2 from by decide]
  norm_num

theorem rawVec_cats : TfIdfSimilarity.rawVec ["Cats run.", "Dogs run."] "Cats run." =
    [Real.log ((3 : ℝ) / 2) + 1, 0, 1] := by
  rw [TfIdfSimilarity.rawVec, vocab_cats_dogs]
  simp only [List.map_cons, List.map_nil]
  rw [show (pyWords "Cats run.").count "cats".data = 1 from by decide,
    show (pyWords "Cats run.").count "dogs".data = 0 from by decide,
    show (pyWords "Cats run.").count "run".data = 1 from by decide,
    idf_cats, idf_dogs, idf_run]
  norm_num

theorem rawVec_dogs : TfIdfSimilarity.rawVec ["Cats run.", "Dogs run."] "Dogs run." =
    [0, Real.log ((3 : ℝ) / 2) + 1, 1] := by
  rw [TfIdfSimilarity.rawVec, vocab_cats_dogs]
  simp only [List.map_cons, List.map_nil]
  rw [show (pyWords "Dogs run.").count "cats".data = 0 from by decide,
    show (pyWords "Dogs run.").count "dogs".data = 1 from by decide,
    show (pyWords "Dogs run.").count "run".data = 1 from by decide,
    idf_cats, idf_dogs, idf_run]
  norm_num

theorem tfidf_cats_dogs :
    TfIdfSimilarity.compare (TfIdfSimilarity.docVector ["Cats run.", "Dogs run."] "Cats run.")
      (TfIdfSimilarity.docVector ["Cats run.", "Dogs run."] "Dogs run.") = 0.3361 := by
  set a := Real.log ((3 : ℝ) / 2) + 1 with ha
  have ha1 : (1.4053 : ℝ) < a := by
    have := log_three_halves_gt
    rw [ha]
    norm_num at this ⊢
    linarith
  have ha2 : a < (1.4056 : ℝ) := by
    have := log_three_halves_lt
    rw [ha]
    norm_num at this ⊢
    linarith
  have hs : (0 : ℝ) < a * a + 1 := by nlinarith
  have hsum1 : (([a, 0, 1] : List ℝ).map (fun x => x * x)).sum = a * a + 1 := by
    simp
  have hsum2 : (([0, a, 1] : List ℝ).map (fun x => x * x)).sum = a * a + 1 := by
    simp
  have hnorm : Real.sqrt (a * a + 1) ≠ 0 := by
    rw [Ne, Real.sqrt_eq_zero']
    push_neg
    exact hs
  have hd1 : TfIdfSimilarity.docVector ["Cats run.", "Dogs run."] "Cats run." =
      [a / Real.sqrt (a * a + 1), 0 / Real.sqrt (a * a + 1), 1 / Real.sqrt (a * a + 1)] := by
    rw [TfIdfSimilarity.docVector, rawVec_cats, ← ha, hsum1, if_neg hnorm]
    simp
  have hd2 : TfIdfSimilarity.docVector ["Cats run.", "Dogs run."] "Dogs run." =
      [0 / Real.sqrt (a * a + 1), a / Real.sqrt (a * a + 1), 1 / Real.sqrt (a * a + 1)] := by
    rw [TfIdfSimilarity.docVector, rawVec_dogs, ← ha, hsum2, if_neg hnorm]
    simp
  rw [hd1, hd2, TfIdfSimilarity.compare, if_neg (by simp)]
  have hdot : (List.zipWith (fun x y => x * y)
      [a / Real.sqrt (a * a + 1), 0 / Real.sqrt (a * a + 1), 1 / Real.sqrt (a * a + 1)]
      [0 / Real.sqrt (a * a + 1), a / Real.sqrt (a * a + 1), 1 / Real.sqrt (a * a + 1)]).sum =
      1 / (a * a + 1) := by
    simp only [List.zipWith_cons_cons, List.zipWith_nil_right, List.sum_cons, List.sum_nil]
    rw [div_mul_div_comm, div_mul_div_comm, div_mul_div_comm,
      Real.mul_self_sqrt (le_of_lt hs)]
    ring
  rw [hdot]
  have hwin := pyRound_eq 4 3361 (1 / (a * a + 1))
    (by
      push_cast
      rw [div_mul_eq_mul_div, lt_div_iff₀ hs]
      nlinarith)
    (by
      push_cast
      rw [div_mul_eq_mul_div, div_lt_iff₀ hs]
      nlinarith)
  rw [hwin]
  norm_num


theorem compare_all_cats_dogs :
    TextComparer.compare_all "Cats run." "Dogs run." = ⟨1, 0.3333, 0.3361⟩ := by
  have hstyl : StylisticFingerprint.compare (StylisticFingerprint.compute "Cats run.")
      (StylisticFingerprint.compute "Dogs run.") = 1 := by
    rw [compute_cats, compute_dogs, StylisticFingerprint.compare,
      rawScore_self _ _ (by simp), pyRound_one]
  rw [TextComparer.compare_all]
  simp only [hstyl, jaccard_cats_dogs, tfidf_cats_dogs]

/-- C2 (amended): for `text1 = "Cats run."` and `text2 = "Dogs run."`,
`compare_all` returns `stylistic = 1.0` (both fingerprints equal
`[2.0, 3.5, 0.5, 1.0, 1.0]`), `jaccard = 0.3333` and `tfidf = 0.3361`
(vocabulary `[cats, dogs, run]`, `idf(cats) = idf(dogs) = ln(3/2) + 1`,
`idf(run) = 1.0`; the dot product of the two L2-normalised tf-idf vectors
is `1 / ((ln(3/2) + 1)^2 + 1) ≈ 0.33610`, which rounds to `0.3361`, not
`0.3362`). -/
theorem claim_C2 :
    StylisticFingerprint.compute "Cats run." = [2, 3.5, 0.5, 1, 1] ∧
    StylisticFingerprint.compute "Dogs run." = [2, 3.5, 0.5, 1, 1] ∧
    TfIdfSimilarity.vocab ["Cats run.", "Dogs run."] =
      ["cats".data, "dogs".data, "run".data] ∧
    TfIdfSimilarity.idf ["Cats run.", "Dogs run."] "cats".data =
      Real.log ((3 : ℝ) / 2) + 1 ∧
    TfIdfSimilarity.idf ["Cats run.", "Dogs run."] "dogs".data =
      Real.log ((3 : ℝ) / 2) + 1 ∧
    TfIdfSimilarity.idf ["Cats run.", "Dogs run."] "run".data = 1 ∧
    TextComparer.compare_all "Cats run." "Dogs run." = ⟨1, 0.3333, 0.3361⟩ :=
  ⟨compute_cats, compute_dogs, vocab_cats_dogs, idf_cats, idf_dogs, idf_run,
    compare_all_cats_dogs⟩

/-- C2 counterexample: the tfidf score of the scenario is `0.3361`, not
`0.3362` as the claim states (the spec squared the already-rounded
component `0.5798` instead of the exact one). -/
theorem claim_C2_cex :
    (TextComparer.compare_all "Cats run." "Dogs run.").tfidf = 0.3361 ∧
      (0.3361 : ℝ) ≠ 0.3362 := by
  rw [compare_all_cats_dogs]
  norm_num


/-! ### Checked (exception-aware) variants -/

/-- Sequential fail-fast mapping in the `Option` monad (the semantics of a
Python loop that may raise at each element). -/
noncomputable def mapOpt {α β : Type} (F : α → Option β) : List α → Option (List β)
  | [] => some []
  | a :: as => do
    let b ← F a
    let bs ← mapOpt F as
    some (b :: bs)

noncomputable def div? (a b : ℝ) : Option ℝ :=
  if b = 0 then none else some (a / b)

noncomputable def log? (x : ℝ) : Option ℝ :=
  if x ≤ 0 then none else some (Real.log x)

noncomputable def sqrt? (x : ℝ) : Option ℝ :=
  if x < 0 then none else some (Real.sqrt x)

namespace StylisticFingerprint

noncomputable def compute? (text : String) : Option (List ℝ) := do
  let sentences := sentencesOf text
  let words := pyWords text
  let punctuation := punctCount text
  let avg_sentence ← if sentences = [] then some 0
    else div? ((sentences.map wsWordCount).sum : ℝ) (sentences.length : ℝ)
  let avg_word ← if words = [] then some 0
    else div? ((words.map List.length).sum : ℝ) (words.length : ℝ)
  let punc_density ← if words = [] then some 0
    else div? (punctuation : ℝ) (words.length : ℝ)
  let lex_div ← if words = [] then some 0
    else div? ((words.dedup.length : ℕ) : ℝ) (words.length : ℝ)
  let short_ratio ← if sentences = [] then some 0
    else
      (div? (((sentences.filter (fun s => wsWordCount s < 5)).length : ℕ) : ℝ)
        (sentences.length : ℝ))
  some ([avg_sentence, avg_word, punc_density, lex_div, short_ratio].map (pyRound 3))

noncomputable def compare? (fp1 fp2 : List ℝ) (epsilon : ℝ := 1 / 10 ^ 8) :
    Option ℝ := do
  let diffs ← mapOpt (fun p =>
    if p.1 = 0 ∧ p.2 = 0 then some 0 else div? |p.1 - p.2| (max p.1 p.2 + epsilon))
    (fp1.zip fp2)
  let score ← if diffs = [] then some 0 else do
    let m ← div? diffs.sum (diffs.length : ℝ)
    some (1 - m)
  some (pyRound 4 score)

end StylisticFingerprint

namespace JaccardSimilarity

noncomputable def compute? (text1 text2 : String) : Option ℝ :=
  let set1 := (pyWords text1).toFinset
  let set2 := (pyWords text2).toFinset
  let union := set1 ∪ set2
  let inter := set1 ∩ set2
  if union = ∅ then some 0 else do
    let r ← div? (inter.card : ℝ) (union.card : ℝ)
    some (pyRound 4 r)

end JaccardSimilarity

namespace TfIdfSimilarity

noncomputable def idf? (texts : List String) (w : List Char) : Option ℝ := do
  let r ← div? ((texts.length : ℝ) + 1) ((df texts w : ℝ) + 1)
  let l ← log? r
  some (l + 1)

noncomputable def rawVec? (texts : List String) (text : String) :
    Option (List ℝ) :=
  mapOpt (fun w => do
    let count := (pyWords text).count w
    let tf ← if 0 < count then do
        let l ← log? (count : ℝ)
        some (1 + l)
      else some (0 : ℝ)
    let i ← idf? texts w
    some (tf * i)) (vocab texts)

noncomputable def docVector? (texts : List String) (text : String) :
    Option (List ℝ) := do
  let vec ← rawVec? texts text
  let norm ← sqrt? ((vec.map (fun x => x * x)).sum)
  if norm = 0 then some vec else mapOpt (fun x => div? x norm) vec

noncomputable def compare? (vec1 vec2 : List ℝ) : Option ℝ :=
  let dot := (List.zipWith (fun a b => a * b) vec1 vec2).sum
  if vec1 = [] ∨ vec2 = [] then some 0 else some (pyRound 4 dot)

end TfIdfSimilarity

namespace TextComparer

noncomputable def compare_all? (text1 text2 : String) :
    Option ComparisonResult := do
  let sf1 ← StylisticFingerprint.compute? text1
  let sf2 ← StylisticFingerprint.compute? text2
  let style_score ← StylisticFingerprint.compare? sf1 sf2
  let jaccard_score ← JaccardSimilarity.compute? text1 text2
  let v1 ← TfIdfSimilarity.docVector? [text1, text2] text1
  let v2 ← TfIdfSimilarity.docVector? [text1, text2] text2
  let tfidf_score ← TfIdfSimilarity.compare? v1 v2
  some { stylistic := style_score, jaccard := jaccard_score, tfidf := tfidf_score }

end TextComparer


theorem mapOpt_eq_some {α β : Type} (F : α → Option β) (f : α → β) (l : List α)
    (h : ∀ a ∈ l, F a = some (f a)) : mapOpt F l = some (l.map f) := by
  induction l with
  | nil => rfl
  | cons a as ih =>
    rw [mapOpt, h a (List.mem_cons_self a as),
      ih (fun x hx => h x (List.mem_cons_of_mem a hx))]
    simp

theorem zip_map_eq_zipWith {α β γ : Type} (f : α → β → γ) (l1 : List α)
    (l2 : List β) :
    (l1.zip l2).map (fun p => f p.1 p.2) = List.zipWith f l1 l2 := by
  induction l1 generalizing l2 with
  | nil => simp
  | cons a as ih =>
    cases l2 with
    | nil => simp
    | cons b bs => simp [ih bs]

theorem compute?_eq (t : String) :
    StylisticFingerprint.compute? t = some (StylisticFingerprint.compute t) := by
  rw [StylisticFingerprint.compute?, StylisticFingerprint.compute]
  by_cases hs : sentencesOf t = [] <;> by_cases hw : pyWords t = []
  · simp [hs, hw]
  · have hwl : ((pyWords t).length : ℝ) ≠ 0 := by
      rw [Nat.cast_ne_zero, Ne, List.length_eq_zero]
      exact hw
    simp [hs, hw, div?, hwl]
  · have hsl : ((sentencesOf t).length : ℝ) ≠ 0 := by
      rw [Nat.cast_ne_zero, Ne, List.length_eq_zero]
      exact hs
    simp [hs, hw, div?, hsl]
  · have hwl : ((pyWords t).length : ℝ) ≠ 0 := by
      rw [Nat.cast_ne_zero, Ne, List.length_eq_zero]
      exact hw
    have hsl : ((sentencesOf t).length : ℝ) ≠ 0 := by
      rw [Nat.cast_ne_zero, Ne, List.length_eq_zero]
      exact hs
    simp [hs, hw, div?, hwl, hsl]

theorem compare?_eq (fp1 fp2 : List ℝ) (epsilon : ℝ) (heps : 0 < epsilon)
    (h1 : ∀ x ∈ fp1, 0 ≤ x) (_h2 : ∀ x ∈ fp2, 0 ≤ x) :
    StylisticFingerprint.compare? fp1 fp2 epsilon =
      some (StylisticFingerprint.compare fp1 fp2 epsilon) := by
  rw [StylisticFingerprint.compare?, StylisticFingerprint.compare,
    StylisticFingerprint.rawScore]
  have hdiffs : mapOpt (fun p =>
      if p.1 = 0 ∧ p.2 = 0 then some 0
      else div? |p.1 - p.2| (max p.1 p.2 + epsilon)) (fp1.zip fp2) =
      some (StylisticFingerprint.diffsOf fp1 fp2 epsilon) := by
    rw [StylisticFingerprint.diffsOf, ← zip_map_eq_zipWith]
    apply mapOpt_eq_some
    intro p hp
    obtain ⟨hp1, hp2⟩ := List.of_mem_zip hp
    by_cases hz : p.1 = 0 ∧ p.2 = 0
    · rw [if_pos hz, if_pos hz]
    · rw [if_neg hz, if_neg hz, div?]
      have hmax : 0 ≤ max p.1 p.2 := le_max_of_le_left (h1 p.1 hp1)
      rw [if_neg (by positivity)]
  rw [hdiffs]
  by_cases hd : StylisticFingerprint.diffsOf fp1 fp2 epsilon = []
  · simp [hd]
  · have hdl : ((StylisticFingerprint.diffsOf fp1 fp2 epsilon).length : ℝ) ≠ 0 := by
      rw [Nat.cast_ne_zero, Ne, List.length_eq_zero]
      exact hd
    simp [hd, div?, hdl]

theorem jaccard?_eq (t1 t2 : String) :
    JaccardSimilarity.compute? t1 t2 = some (JaccardSimilarity.compute t1 t2) := by
  rw [JaccardSimilarity.compute?, JaccardSimilarity.compute]
  by_cases h : (pyWords t1).toFinset ∪ (pyWords t2).toFinset = ∅
  · simp [h]
  · have hc : (((pyWords t1).toFinset ∪ (pyWords t2).toFinset).card : ℝ) ≠ 0 := by
      rw [Nat.cast_ne_zero, Ne, Finset.card_eq_zero]
      exact h
    simp [h, div?, hc]

theorem idf?_eq (texts : List String) (w : List Char) :
    TfIdfSimilarity.idf? texts w = some (TfIdfSimilarity.idf texts w) := by
  rw [TfIdfSimilarity.idf?, TfIdfSimilarity.idf]
  have hd : ((TfIdfSimilarity.df texts w : ℝ) + 1) ≠ 0 := by positivity
  have hr : ¬(((texts.length : ℝ) + 1) / ((TfIdfSimilarity.df texts w : ℝ) + 1) ≤ 0) := by
    push_neg
    positivity
  simp [div?, log?, hd, hr]

theorem rawVec?_eq (texts : List String) (text : String) :
    TfIdfSimilarity.rawVec? texts text = some (TfIdfSimilarity.rawVec texts text) := by
  rw [TfIdfSimilarity.rawVec?, TfIdfSimilarity.rawVec]
  apply mapOpt_eq_some
  intro w _
  by_cases hc : 0 < (pyWords text).count w
  · have hcr : ¬((((pyWords text).count w : ℕ) : ℝ) ≤ 0) := by
      push_neg
      exact_mod_cast hc
    simp [hc, log?, hcr, idf?_eq]
  · simp [hc, idf?_eq]

theorem docVector?_eq (texts : List String) (text : String) :
    TfIdfSimilarity.docVector? texts text =
      some (TfIdfSimilarity.docVector texts text) := by
  rw [TfIdfSimilarity.docVector?, TfIdfSimilarity.docVector, rawVec?_eq]
  have hsq : ¬(((TfIdfSimilarity.rawVec texts text).map (fun x => x * x)).sum < 0) := by
    push_neg
    exact sumsq_nonneg _
  by_cases hn : Real.sqrt (((TfIdfSimilarity.rawVec texts text).map (fun x => x * x)).sum) = 0
  · simp [sqrt?, hsq, hn]
  · have hmapm := mapOpt_eq_some (fun x => div? x
      (Real.sqrt (((TfIdfSimilarity.rawVec texts text).map (fun x => x * x)).sum)))
      (fun x => x / Real.sqrt (((TfIdfSimilarity.rawVec texts text).map (fun x => x * x)).sum))
      (TfIdfSimilarity.rawVec texts text)
      (fun x _ => by simp [div?, hn])
    simp [sqrt?, hsq, hn, hmapm]

theorem tfidf_compare?_eq (v1 v2 : List ℝ) :
    TfIdfSimilarity.compare? v1 v2 = some (TfIdfSimilarity.compare v1 v2) := by
  rw [TfIdfSimilarity.compare?, TfIdfSimilarity.compare]
  by_cases h : v1 = [] ∨ v2 = []
  · simp [h]
  · simp [h]


theorem vocab_nil (t1 t2 : String) (h1 : pyWords t1 = []) (h2 : pyWords t2 = []) :
    TfIdfSimilarity.vocab [t1, t2] = [] := by
  rw [TfIdfSimilarity.vocab]
  simp [h1, h2, List.insertionSort]

theorem docVector_nil (t1 t2 t : String) (h1 : pyWords t1 = [])
    (h2 : pyWords t2 = []) : TfIdfSimilarity.docVector [t1, t2] t = [] := by
  have hraw : TfIdfSimilarity.rawVec [t1, t2] t = [] := by
    rw [TfIdfSimilarity.rawVec, vocab_nil t1 t2 h1 h2]
    rfl
  rw [TfIdfSimilarity.docVector, hraw]
  simp

/-- C6: for every pair of input strings, the checked pipeline (in which
every division, logarithm and square root is guarded and any unguarded
partial operation would produce `none`) returns `some` of exactly the value
of `compare_all`: the engine never raises and always produces all three
scores.  Moreover, when both texts have no word tokens, the TF-IDF
comparator returns `0.0` instead of failing on the empty vocabulary. -/
theorem claim_C6 (t1 t2 : String) :
    TextComparer.compare_all? t1 t2 = some (TextComparer.compare_all t1 t2) ∧
    (pyWords t1 = [] → pyWords t2 = [] →
      (TextComparer.compare_all t1 t2).tfidf = 0) := by
  constructor
  · have hc := compare?_eq (StylisticFingerprint.compute t1)
      (StylisticFingerprint.compute t2) (((10 : ℝ) ^ 8)⁻¹) (by norm_num)
      (fingerprint_nonneg t1) (fingerprint_nonneg t2)
    rw [TextComparer.compare_all?, TextComparer.compare_all]
    simp [compute?_eq, jaccard?_eq, docVector?_eq, tfidf_compare?_eq]
    rw [hc]
    simp
  · intro h1 h2
    have hd1 := docVector_nil t1 t2 t1 h1 h2
    have hd2 := docVector_nil t1 t2 t2 h1 h2
    have ht : (TextComparer.compare_all t1 t2).tfidf =
        TfIdfSimilarity.compare (TfIdfSimilarity.docVector [t1, t2] t1)
          (TfIdfSimilarity.docVector [t1, t2] t2) := by
      rw [TextComparer.compare_all]
    rw [ht, hd1, hd2, tfidf_cmp_nil]

/-- Witness for C6 at the concrete pair of empty strings, discharging the
no-word-token hypotheses of the second conjunct. -/
theorem claim_C6_witness :
    TextComparer.compare_all? "" "" = some (TextComparer.compare_all "" "") ∧
    (TextComparer.compare_all "" "").tfidf = 0 :=
  ⟨(claim_C6 "" "").1, (claim_C6 "" "").2 (by decide) (by decide)⟩
